import Mathlib

/-!
# orijtech/cacher : the check / relocate / record handler

A shallow embedding of `main.go`.  The handler `retrieveOrFetchAndCache` talks to
outside systems: the JSON and URL libraries, Cloud Spanner and the `tos3` uploader.
They are collected in `Env`; the handler threads the state of the outside world through
its calls and keeps a log of every call it makes, so that a statement such as "no store
write happens" is a statement about that log.

The `spanner` struct tags of `Record` are written in the JSON style
(`original_url,omitempty`).  The Spanner client takes the whole tag as the column name,
so the mutation built from a `Record` names columns that the table does not have and a
row read with the columns `original_url, ...` does not decode into a `Record`.  The
client's use of the tags is part of the embedding (`spanner.InsertStruct`,
`spanner.ToStruct`).
-/

namespace Cacher

/-! ## Data model -/

/-- A Go byte slice. -/
abbrev Bytes := List Nat

/-- Go's `Request` struct: the decoded JSON body. -/
structure Request where
  URL : String
  ForceRefetch : Bool
  ExpiryTimeSeconds : Int
deriving DecidableEq, Repr

/-- Go's `Record` struct: one row of the `cacher` table. -/
structure Record where
  Origin : String
  CachedURL : String
  Err : String
  TimeAt : Int
deriving DecidableEq, Repr

/-- What the handler uses of a parsed `*url.URL`: its `Host` field and the value of
its `String()` method. -/
structure URL where
  Host : String
  String : String
deriving DecidableEq, Repr

/-- A `time.Time` in UTC: whole seconds since the epoch and the nanoseconds within the
second. -/
structure Time where
  sec : Int
  nsec : Nat
deriving DecidableEq, Repr

/-- Go's `(time.Time).Unix`. -/
def Time.Unix (t : Time) : Int := t.sec

/-- The part of `*http.Request` the handler reads: the outcome of
`ioutil.ReadAll(r.Body)`. -/
structure HttpRequest where
  Body : Except String Bytes

/-- What was written to the `http.ResponseWriter`. -/
inductive Payload where
  | json (value : Record)
  | text (error : String)
deriving DecidableEq, Repr

/-- The HTTP answer: status code and payload. -/
structure Response where
  code : Nat
  body : Payload
deriving DecidableEq, Repr

def StatusOK : Nat := 200
def StatusBadRequest : Nat := 400
def StatusUnprocessableEntity : Nat := 422

/-- Go's `http.Error(w, error, code)`. -/
def httpError (error : String) (code : Nat) : Response := ⟨code, .text error⟩

/-- The source's `replyAsJSON`: encodes the value; no status is set, so it is 200. -/
def replyAsJSON (value : Record) : Response := ⟨StatusOK, .json value⟩

def spannerTableName : String := "cacher"

def defaultS3Bucket : String := "cacher-app"

/-! ## crypto/md5 and the `%x` verb -/

namespace md5

/-- Per-round left-rotation amounts of MD5 (RFC 1321). -/
def shifts : List Nat :=
  [7, 12, 17, 22, 7, 12, 17, 22, 7, 12, 17, 22, 7, 12, 17, 22,
   5, 9, 14, 20, 5, 9, 14, 20, 5, 9, 14, 20, 5, 9, 14, 20,
   4, 11, 16, 23, 4, 11, 16, 23, 4, 11, 16, 23, 4, 11, 16, 23,
   6, 10, 15, 21, 6, 10, 15, 21, 6, 10, 15, 21, 6, 10, 15, 21]

/-- The sine table of MD5. -/
def table : List Nat :=
  [0xd76aa478, 0xe8c7b756, 0x242070db, 0xc1bdceee,
   0xf57c0faf, 0x4787c62a, 0xa8304613, 0xfd469501,
   0x698098d8, 0x8b44f7af, 0xffff5bb1, 0x895cd7be,
   0x6b901122, 0xfd987193, 0xa679438e, 0x49b40821,
   0xf61e2562, 0xc040b340, 0x265e5a51, 0xe9b6c7aa,
   0xd62f105d, 0x02441453, 0xd8a1e681, 0xe7d3fbc8,
   0x21e1cde6, 0xc33707d6, 0xf4d50d87, 0x455a14ed,
   0xa9e3e905, 0xfcefa3f8, 0x676f02d9, 0x8d2a4c8a,
   0xfffa3942, 0x8771f681, 0x6d9d6122, 0xfde5380c,
   0xa4beea44, 0x4bdecfa9, 0xf6bb4b60, 0xbebfbc70,
   0x289b7ec6, 0xeaa127fa, 0xd4ef3085, 0x04881d05,
   0xd9d4d039, 0xe6db99e5, 0x1fa27cf8, 0xc4ac5665,
   0xf4292244, 0x432aff97, 0xab9423a7, 0xfc93a039,
   0x655b59c3, 0x8f0ccc92, 0xffeff47d, 0x85845dd1,
   0x6fa87e4f, 0xfe2ce6e0, 0xa3014314, 0x4e0811a1,
   0xf7537e82, 0xbd3af235, 0x2ad7d2bb, 0xeb86d391]

/-- Rotate a 32-bit word left by `n` bits. -/
def rotl32 (x n : Nat) : Nat :=
  ((x <<< n) ||| (x >>> (32 - n))) % 2 ^ 32

/-- Bitwise complement of a 32-bit word. -/
def not32 (x : Nat) : Nat := x ^^^ 0xffffffff

/-- The four chaining words `a, b, c, d`. -/
structure Chain where
  a : Nat
  b : Nat
  c : Nat
  d : Nat
deriving DecidableEq, Repr

/-- Initial chaining value. -/
def init : Chain := ⟨0x67452301, 0xefcdab89, 0x98badcfe, 0x10325476⟩

/-- Little-endian 32-bit word number `g` of a 64-byte block. -/
def word (blk : List Nat) (g : Nat) : Nat :=
  blk.getD (4 * g) 0 + blk.getD (4 * g + 1) 0 * 2 ^ 8 + blk.getD (4 * g + 2) 0 * 2 ^ 16
    + blk.getD (4 * g + 3) 0 * 2 ^ 24

/-- One of the 64 steps of the compression function. -/
def step (blk : List Nat) (s : Chain) (i : Nat) : Chain :=
  let fg : Nat × Nat :=
    if i < 16 then ((s.b &&& s.c) ||| (not32 s.b &&& s.d), i)
    else if i < 32 then ((s.d &&& s.b) ||| (not32 s.d &&& s.c), (5 * i + 1) % 16)
    else if i < 48 then (s.b ^^^ s.c ^^^ s.d, (3 * i + 5) % 16)
    else (s.c ^^^ (s.b ||| not32 s.d), (7 * i) % 16)
  let f := (fg.1 + s.a + table.getD i 0 + word blk fg.2) % 2 ^ 32
  ⟨s.d, (s.b + rotl32 f (shifts.getD i 0)) % 2 ^ 32, s.b, s.c⟩

/-- The compression function on one 64-byte block. -/
def block (s : Chain) (blk : List Nat) : Chain :=
  let t := (List.range 64).foldl (step blk) s
  ⟨(s.a + t.a) % 2 ^ 32, (s.b + t.b) % 2 ^ 32, (s.c + t.c) % 2 ^ 32, (s.d + t.d) % 2 ^ 32⟩

/-- Compress `n` consecutive 64-byte blocks. -/
def blocks : Nat → List Nat → Chain → Chain
  | 0, _, s => s
  | n + 1, p, s => blocks n (p.drop 64) (block s (p.take 64))

/-- The `k` low bytes of `x`, least significant first. -/
def leBytes : Nat → Nat → List Nat
  | 0, _ => []
  | k + 1, x => x % 256 :: leBytes k (x / 256)

/-- MD5 padding: a `0x80` byte, zeros up to 56 modulo 64, then the bit length as a
64-bit little-endian integer. -/
def pad (data : List Nat) : List Nat :=
  data ++ 0x80 :: List.replicate ((55 + 64 - data.length % 64) % 64) 0
    ++ leBytes 8 ((8 * data.length) % 2 ^ 64)

/-- The 16-byte MD5 digest of a byte string. -/
def Sum (data : List Nat) : List Nat :=
  let p := pad data
  let s := blocks (p.length / 64) p init
  leBytes 4 s.a ++ leBytes 4 s.b ++ leBytes 4 s.c ++ leBytes 4 s.d

end md5

/-- The bytes of a Go string (its UTF-8 encoding). -/
def bytesOf (s : String) : List Nat :=
  s.data.flatMap fun c => (String.utf8EncodeChar c).map UInt8.toNat

/-- One lowercase hexadecimal digit. -/
def hexDigit (n : Nat) : Char :=
  "0123456789abcdef".data.getD n '0'

/-- Go's `fmt.Sprintf("%x", b)` for a byte slice `b`: two lowercase hexadecimal digits
per byte. -/
def sprintfHex (b : List Nat) : String :=
  String.mk (b.flatMap fun x => [hexDigit (x / 16), hexDigit (x % 16)])

/-- The destination name of step 2: `fmt.Sprintf("%x", h.Sum(nil))` after
`io.WriteString(h, originalURL)` on a fresh `md5.New()`. -/
def md5Hex (originalURL : String) : String :=
  sprintfHex (md5.Sum (bytesOf originalURL))

/-! ## Outside systems -/

namespace spanner

/-- A column value: the table has string columns and one 64-bit integer column. -/
inductive Value where
  | String (s : String)
  | Int64 (n : Int)
  | Null
deriving DecidableEq, Repr

/-- A `*spanner.Row`: the names of its columns and their values. -/
structure Row where
  fields : List String
  vals : List Value
deriving DecidableEq, Repr

/-- The kinds of write mutation: `spanner.Insert` and `spanner.InsertOrUpdate`. -/
inductive op where
  | opInsert
  | opInsertOrUpdate
deriving DecidableEq, Repr

/-- A `*spanner.Mutation`: operation, table, column names and values. -/
structure Mutation where
  op : op
  table : String
  columns : List String
  values : List Value
deriving DecidableEq, Repr

/-- The fields of `Record` with their `spanner` struct tags, as written in the source:
Go field name and tag. -/
def recordTags : List (String × String) :=
  [("Origin", "original_url,omitempty"), ("CachedURL", "cached_url,omitempty"),
    ("Err", "err,omitempty"), ("TimeAt", "time_at,omitempty")]

/-- The client's tag parser: the column name of a field is the whole `spanner` tag (it
is not split at a comma); an empty tag means the Go field name, and `-` drops the
field. -/
def fieldName (goName tag : String) : Option String :=
  if tag = "" then some goName else if tag = "-" then none else some tag

/-- The fields of `Record` as the client's field cache lists them: column name and Go
field name. -/
def recordFields : List (String × String) :=
  recordTags.filterMap fun f => (fieldName f.1 f.2).map fun name => (name, f.1)

/-- The value of a Go field of a `Record`. -/
def fieldValue (rc : Record) (goName : String) : Value :=
  if goName = "Origin" then .String rc.Origin
  else if goName = "CachedURL" then .String rc.CachedURL
  else if goName = "Err" then .String rc.Err
  else if goName = "TimeAt" then .Int64 rc.TimeAt
  else .Null

/-- The mutation that `spanner.InsertStruct(table, in)` builds for a `Record`: an insert
whose columns are the field names of the struct and whose values are its fields. -/
def insertMutation (table : String) (inp : Record) : Mutation :=
  ⟨.opInsert, table, recordFields.map fun f => f.1,
    recordFields.map fun f => fieldValue inp f.2⟩

/-- The library's `spanner.InsertStruct(table, in)`.  It only fails when `in` is not a
struct pointer. -/
def InsertStruct (table : String) (inp : Record) : Except String Mutation :=
  .ok (insertMutation table inp)

/-- Lower-casing, for the case-insensitive comparison of field names. -/
def foldName (s : String) : String :=
  String.mk (s.data.map Char.toLower)

/-- The client's `fields.Match`: the Go field whose column name is `name` exactly, or
else the first one whose name is `name` up to case. -/
def matchField (name : String) : Option String :=
  match recordFields.find? fun f => f.1 == name with
  | some f => some f.2
  | none => (recordFields.find? fun f => foldName f.1 == foldName name).map fun f => f.2

def errFieldsMismatchVals : String :=
  "spanner: code = \"InvalidArgument\", desc = \"row has different number of fields and values\""

def errUnnamedField : String :=
  "spanner: code = \"InvalidArgument\", desc = \"unnamed field\""

def errNoOrDupGoField (name : String) : String :=
  "spanner: code = \"InvalidArgument\", desc = \"Go struct has no or duplicate fields for Cloud Spanner STRUCT field " ++ name ++ "\""

def errDupSpannerField (name : String) : String :=
  "spanner: code = \"InvalidArgument\", desc = \"duplicated field name " ++ name ++ "\""

def errTypeMismatch (name : String) : String :=
  "spanner: code = \"InvalidArgument\", desc = \"type mismatch for field " ++ name ++ "\""

/-- Decoding of one column value into a Go field of a `Record`. -/
def setField (rc : Record) (goName : String) (v : Value) : Except String Record :=
  match v with
  | .String s =>
    if goName = "Origin" then .ok { rc with Origin := s }
    else if goName = "CachedURL" then .ok { rc with CachedURL := s }
    else if goName = "Err" then .ok { rc with Err := s }
    else .error (errTypeMismatch goName)
  | .Int64 n =>
    if goName = "TimeAt" then .ok { rc with TimeAt := n }
    else .error (errTypeMismatch goName)
  | .Null => .error (errTypeMismatch goName)

/-- The client's `decodeStruct`: every column of the row must match a field of the
struct, no column may occur twice, and each value is decoded into its field. -/
def decodeStruct : List String → List Value → List String → Record → Except String Record
  | name :: names, v :: vs, seen, rc =>
    if name = "" then .error errUnnamedField
    else
      match matchField name with
      | none => .error (errNoOrDupGoField name)
      | some goName =>
        if name ∈ seen then .error (errDupSpannerField name)
        else
          match setField rc goName v with
          | .error err => .error err
          | .ok rc1 => decodeStruct names vs (name :: seen) rc1
  | _, _, _, rc => .ok rc

/-- The library's `row.ToStruct(rc)` on a fresh `Record`. -/
def ToStruct (row : Row) : Except String Record :=
  if row.vals.length ≠ row.fields.length then .error errFieldsMismatchVals
  else decodeStruct row.fields row.vals [] ⟨"", "", "", 0⟩

end spanner

/-- The fields of `tos3.Request` that the source sets (the `S3Client` handle apart). -/
structure tos3Request where
  Name : String
  Path : String
  URL : String
  Private : Bool
  Bucket : String
deriving DecidableEq, Repr

instance instDecidableEqExcept {ε α : Type} [DecidableEq ε] [DecidableEq α] :
    DecidableEq (Except ε α)
  | .ok a, .ok b => if h : a = b then isTrue (by rw [h]) else isFalse (by simp [h])
  | .error a, .error b => if h : a = b then isTrue (by rw [h]) else isFalse (by simp [h])
  | .ok _, .error _ => isFalse (by simp)
  | .error _, .ok _ => isFalse (by simp)

/-- One call to an outside system, with its outcome where the handler looks at it. -/
inductive Call where
  | ReadRow (table key : String) (columns : List String)
  | UploadToS3 (req : tos3Request) (res : Except String String)
  | Apply (ms : List spanner.Mutation) (res : Option String)
deriving DecidableEq

/-- The libraries and services the handler calls.  `σ` is the state of the outside
world (database contents, bucket contents, network weather), `ρ` the type of a
`*spanner.Row`. -/
structure Env (σ ρ : Type) where
  /-- Decoding of the body into a fresh `Request`, as `json.Unmarshal(blob, req)`. -/
  Unmarshal : Bytes → Except String Request
  /-- The library's `url.Parse`. -/
  Parse : String → Except String URL
  /-- The call `spannerClient.Single().ReadRow(ctx, table, key, columns)`. -/
  ReadRow : σ → String → String → List String → Except String ρ × σ
  /-- The call `row.ToStruct(rc)` on a fresh `Record`. -/
  ToStruct : ρ → Except String Record
  /-- The call `spannerClient.Apply(ctx, ms)`; `none` is a nil error. -/
  Apply : σ → List spanner.Mutation → Option String × σ
  /-- The call `s3Req.UploadToS3()`, giving `res.URL` on success. -/
  UploadToS3 : σ → tos3Request → Except String String × σ

/-- The outside world together with the log of calls made so far. -/
structure World (σ : Type) where
  ext : σ
  log : List Call

/-! ## The source's functions -/

variable {σ ρ : Type}

/-- The source's `checkDB`. -/
def checkDB (E : Env σ ρ) (w : World σ) (originalURL : String) :
    Except String Record × World σ :=
  let columns := ["original_url", "cached_url", "err", "time_at"]
  let out := E.ReadRow w.ext spannerTableName originalURL columns
  let w1 : World σ := ⟨out.2, w.log ++ [.ReadRow spannerTableName originalURL columns]⟩
  match out.1 with
  | .error err => (.error err, w1)
  | .ok row =>
    match E.ToStruct row with
    | .error err => (.error err, w1)
    | .ok rc => (.ok rc, w1)

/-- The source's `saveRecordToSpanner`; `none` is a nil error. -/
def saveRecordToSpanner (E : Env σ ρ) (w : World σ) (record : Record) :
    Option String × World σ :=
  match spanner.InsertStruct spannerTableName record with
  | .error err => (some err, w)
  | .ok m =>
    let out := E.Apply w.ext [m]
    (out.1, ⟨out.2, w.log ++ [.Apply [m] out.1]⟩)

/-- The source's `uploadToS3`. -/
def uploadToS3 (E : Env σ ρ) (w : World σ) (originalURL s3Path s3Name : String) :
    Except String String × World σ :=
  let s3Req : tos3Request :=
    { Name := s3Name, Path := s3Path, URL := originalURL, Private := false,
      Bucket := defaultS3Bucket }
  let out := E.UploadToS3 w.ext s3Req
  (out.1, ⟨out.2, w.log ++ [.UploadToS3 s3Req out.1]⟩)

/-- The source's HTTP handler `retrieveOrFetchAndCache`.  `now` is the reading of
`time.Now().UTC()`.  The write into the MD5 hash cannot fail, so that error branch is
absent. -/
def retrieveOrFetchAndCache (E : Env σ ρ) (now : Time) (r : HttpRequest) (w : World σ) :
    Response × World σ :=
  match r.Body with
  | .error err => (httpError err StatusBadRequest, w)
  | .ok blob =>
    match E.Unmarshal blob with
    | .error err => (httpError err StatusBadRequest, w)
    | .ok req =>
      match E.Parse req.URL with
      | .error err => (httpError err StatusBadRequest, w)
      | .ok u =>
        let originalURL := u.String
        -- 1. Check the DB if it already exists
        match checkDB E w originalURL with
        | (.ok record, w1) => (replyAsJSON record, w1)
        | (.error _, w1) =>
          -- 2. Otherwise this was a cache miss
          let md5Sum := md5Hex originalURL
          match uploadToS3 E w1 originalURL (u.Host ++ "/" ++ md5Sum) md5Sum with
          | (.error err, w2) => (httpError err StatusBadRequest, w2)
          | (.ok s3URL, w2) =>
            -- 3. Now update that record on Spanner
            let record : Record :=
              { Origin := originalURL, CachedURL := s3URL, Err := "", TimeAt := now.Unix }
            match saveRecordToSpanner E w2 record with
            | (some err, w3) => (httpError err StatusBadRequest, w3)
            | (none, w3) =>
              match checkDB E w3 originalURL with
              | (.ok record, w4) => (replyAsJSON record, w4)
              | (.error _, w4) =>
                (httpError "Failed to process record" StatusUnprocessableEntity, w4)

/-- Handle one request starting from an empty log: the answer, the new state of the
outside world, and the calls made. -/
def handle (E : Env σ ρ) (now : Time) (r : HttpRequest) (x : σ) :
    Response × σ × List Call :=
  let out := retrieveOrFetchAndCache E now r ⟨x, []⟩
  (out.1, out.2.ext, out.2.log)

/-- Handle a sequence of requests one after another, each with its clock reading; the
answer and the calls of every request are collected in order. -/
def serve (E : Env σ ρ) : List (Time × HttpRequest) → σ → List (Response × List Call) × σ
  | [], x => ([], x)
  | (now, r) :: rest, x =>
    let out := handle E now r x
    let tl := serve E rest out.2.1
    ((out.1, out.2.2) :: tl.1, tl.2)

/-- Whether a logged call is a call of the uploader. -/
def Call.isUpload : Call → Bool
  | .UploadToS3 _ _ => true
  | _ => false

/-- Whether a logged call is a store write. -/
def Call.isWrite : Call → Bool
  | .Apply _ _ => true
  | _ => false

/-- Whether a logged call is an upload of `origin` that succeeded. -/
def Call.relocated (origin : String) : Call → Bool
  | .UploadToS3 req (.ok _) => req.URL == origin
  | _ => false

/-- The log entry of the point lookup that `checkDB` makes for a key. -/
def readCall (key : String) : Call :=
  .ReadRow spannerTableName key ["original_url", "cached_url", "err", "time_at"]

/-- The same environment, except that the decoded request has its `ForceRefetch` flag
replaced by `flag req`. -/
def overrideForceRefetch (E : Env σ ρ) (flag : Request → Bool) : Env σ ρ :=
  { E with Unmarshal := fun blob =>
      match E.Unmarshal blob with
      | .error err => .error err
      | .ok req => .ok { req with ForceRefetch := flag req } }

/-- The upload request the handler builds for a parsed URL. -/
def uploadFor (u : URL) : tos3Request :=
  ⟨md5Hex u.String, u.Host ++ "/" ++ md5Hex u.String, u.String, false, defaultS3Bucket⟩

/-- An environment that goes through the Spanner client: a row that `ReadRow` returns
has the requested columns as its field names, and it is decoded by the client's
`ToStruct` with the tags of `Record`.  What the store answers to a read (`read`) and to
a write (`apply`), the decoder, the URL parser and the uploader are arbitrary. -/
def clientEnv (Unmarshal : Bytes → Except String Request)
    (Parse : String → Except String URL)
    (read : σ → String → String → List String → Except String (List spanner.Value) × σ)
    (apply : σ → List spanner.Mutation → Option String × σ)
    (upload : σ → tos3Request → Except String String × σ) : Env σ spanner.Row where
  Unmarshal := Unmarshal
  Parse := Parse
  ReadRow := fun x table key columns =>
    match read x table key columns with
    | (.error err, x1) => (.error err, x1)
    | (.ok vals, x1) => (.ok ⟨columns, vals⟩, x1)
  ToStruct := spanner.ToStruct
  Apply := apply
  UploadToS3 := upload

/-! ## A reference model of the store

Modelled from the spec: Cloud Spanner and its client are not under `src/`.  The store is
the spec's Record Store, a table keyed by the origin with point lookup that tells
not-found from other errors, and with the write that the source sends: a mutation is
applied as Cloud Spanner applies it (a column that the table does not have is rejected,
an insert on an existing key is rejected, an insert-or-update replaces). -/

namespace spanner

/-- A stored row: column names with their values. -/
abbrev Stored := List (String × Value)

/-- Modelled from the spec: the columns of table `cacher` (not under `src/`) are those
of the spec's CacheRecord under the names that `checkDB` reads. -/
def cacherColumns : List String := ["original_url", "cached_url", "err", "time_at"]

def errTableNotFound (table : String) : String :=
  "spanner: code = \"NotFound\", desc = \"Table not found: " ++ table ++ "\""

def errColumnNotFound (table column : String) : String :=
  "spanner: code = \"InvalidArgument\", desc = \"Column not found in table " ++ table ++ ": "
    ++ column ++ "\""

def errRowNotFound : String :=
  "spanner: code = \"NotFound\", desc = \"row not found\""

def errAlreadyExists : String :=
  "spanner: code = \"AlreadyExists\", desc = \"Row already exists\""

def errNoKey : String :=
  "spanner: code = \"FailedPrecondition\", desc = \"original_url must not be NULL\""

/-- Modelled from the spec: point lookup by primary key (the spec's `get`), the key
being the value of column `original_url`. -/
def lookup (rows : List Stored) (key : String) : Option Stored :=
  rows.find? fun row => row.lookup "original_url" == some (.String key)

/-- Modelled from the spec: the store's answer to a point read (the spec's `get`): the
values of the requested columns of the row with the key, a not-found error when there
is no such row, another error when the table or a column does not exist. -/
def readValues (rows : List Stored) (table key : String) (columns : List String) :
    Except String (List Value) :=
  if table ≠ spannerTableName then .error (errTableNotFound table)
  else
    match columns.find? fun c => !cacherColumns.contains c with
    | some c => .error (errColumnNotFound table c)
    | none =>
      match lookup rows key with
      | none => .error errRowNotFound
      | some row => .ok (columns.map fun c => (row.lookup c).getD .Null)

/-- Modelled from the spec: the store's handling of one mutation (the spec's `upsert`,
for the mutation kinds of Cloud Spanner).  A table or column that does not exist is
rejected; an insert of a row whose key exists fails with `AlreadyExists`; an
insert-or-update replaces the row instead. -/
def applyOne (rows : List Stored) (m : Mutation) : Except String (List Stored) :=
  if m.table ≠ spannerTableName then .error (errTableNotFound m.table)
  else
    match m.columns.find? fun c => !cacherColumns.contains c with
    | some c => .error (errColumnNotFound m.table c)
    | none =>
      let row : Stored := m.columns.zip m.values
      match row.lookup "original_url" with
      | some (.String key) =>
        match m.op, lookup rows key with
        | .opInsert, some _ => .error errAlreadyExists
        | .opInsert, none => .ok (rows ++ [row])
        | .opInsertOrUpdate, some _ =>
          .ok (rows.map fun old =>
            if old.lookup "original_url" == some (.String key) then row else old)
        | .opInsertOrUpdate, none => .ok (rows ++ [row])
      | _ => .error errNoKey

/-- Modelled from the spec: the mutations of one `Apply` are applied in order, all or
none. -/
def applyAll : List Stored → List Mutation → Except String (List Stored)
  | rows, [] => .ok rows
  | rows, m :: ms =>
    match applyOne rows m with
    | .error err => .error err
    | .ok rows1 => applyAll rows1 ms

end spanner

/-- State of the reference world: the rows of the `cacher` table, the fault (if any)
that each coming store call meets (an unavailable backend, a denied permission, a
cancelled or timed-out context), and the state `α` of the uploader. -/
structure Cloud (α : Type) where
  rows : List spanner.Stored
  faults : List (Option String)
  bucket : α

/-- Modelled from the spec: a point read in the reference world (Cloud Spanner is not
under `src/`).  A call that meets a fault fails with it; otherwise the store answers as
`spanner.readValues`. -/
def cloudRead {α : Type} (c : Cloud α) (table key : String) (columns : List String) :
    Except String (List spanner.Value) × Cloud α :=
  match c.faults.head?.join with
  | some err => (.error err, { c with faults := c.faults.tail })
  | none => (spanner.readValues c.rows table key columns, { c with faults := c.faults.tail })

/-- Modelled from the spec: a write in the reference world (Cloud Spanner is not under
`src/`).  A call that meets a fault fails with it and changes nothing; otherwise the
mutations are applied as `spanner.applyAll`. -/
def cloudApply {α : Type} (c : Cloud α) (ms : List spanner.Mutation) :
    Option String × Cloud α :=
  match c.faults.head?.join with
  | some err => (some err, { c with faults := c.faults.tail })
  | none =>
    match spanner.applyAll c.rows ms with
    | .error err => (some err, { c with faults := c.faults.tail })
    | .ok rows1 => (none, { c with rows := rows1, faults := c.faults.tail })

/-- The uploader acting on its part of the reference world. -/
def cloudUpload {α : Type} (upload : α → tos3Request → Except String String × α)
    (c : Cloud α) (req : tos3Request) : Except String String × Cloud α :=
  let out := upload c.bucket req
  (out.1, { c with bucket := out.2 })

/-- Modelled from the spec: the reference environment (Cloud Spanner is not under
`src/`): the store of `cloudRead` and `cloudApply`, reached through the Spanner client
(`clientEnv`), with the given decoder, URL parser and uploader. -/
def cloudEnv {α : Type} (Unmarshal : Bytes → Except String Request)
    (Parse : String → Except String URL)
    (upload : α → tos3Request → Except String String × α) :
    Env (Cloud α) spanner.Row :=
  clientEnv Unmarshal Parse cloudRead cloudApply (cloudUpload upload)

/-! ## Sample collaborators for concrete runs -/

def bodyA : Bytes := bytesOf "\x7b\"url\": \"http://example.com/a.jpg\"\x7d"

def bodyForce : Bytes :=
  bytesOf "\x7b\"url\": \"http://example.com/a.jpg\", \"force_refetch\": true\x7d"

def bodyBadURL : Bytes := bytesOf "\x7b\"url\": \"::not a url::\"\x7d"

/-- A decoder that knows the sample bodies and rejects everything else. -/
def sampleUnmarshal (blob : Bytes) : Except String Request :=
  if blob = bodyA then .ok ⟨"http://example.com/a.jpg", false, 0⟩
  else if blob = bodyForce then .ok ⟨"http://example.com/a.jpg", true, 0⟩
  else if blob = bodyBadURL then .ok ⟨"::not a url::", false, 0⟩
  else .error "invalid character"

/-- What follows the first `//` of a string. -/
def afterSlashes : List Char → List Char
  | '/' :: '/' :: rest => rest
  | _ :: rest => afterSlashes rest
  | [] => []

/-- A URL parser for the sample URLs: like Go's `getScheme` it rejects a string that
starts with a colon; otherwise the host is what stands between `//` and the next
slash, and the string form is the input. -/
def sampleParse (rawURL : String) : Except String URL :=
  if rawURL.data.head? = some ':' then
    .error ("parse \"" ++ rawURL ++ "\": missing protocol scheme")
  else
    .ok ⟨String.mk ((afterSlashes rawURL.data).takeWhile fun c => c != '/'), rawURL⟩

/-- An uploader that always succeeds and remembers what it stored. -/
def okUpload (bucket : List tos3Request) (req : tos3Request) :
    Except String String × List tos3Request :=
  (.ok ("https://s3.amazonaws.com/" ++ req.Bucket ++ "/" ++ req.Path), bucket ++ [req])

/-- An uploader whose fetch of the origin always fails. -/
def badUpload (bucket : List tos3Request) (_req : tos3Request) :
    Except String String × List tos3Request :=
  (.error "tos3: fetch failed", bucket)

def sampleEnv : Env (Cloud (List tos3Request)) spanner.Row :=
  cloudEnv sampleUnmarshal sampleParse okUpload

def sampleEnvBad : Env (Cloud (List tos3Request)) spanner.Row :=
  cloudEnv sampleUnmarshal sampleParse badUpload

def reqA : HttpRequest := ⟨.ok bodyA⟩

/-- A row of the table for the sample origin. -/
def storedA : spanner.Stored :=
  [("original_url", .String "http://example.com/a.jpg"),
    ("cached_url", .String "https://cdn.example.org/old"), ("err", .String ""),
    ("time_at", .Int64 1500000000)]

def noon : Time := ⟨1530000000, 5⟩

def later : Time := ⟨1530000100, 0⟩

/-- The parsed form of the sample origin. -/
def urlA : URL := ⟨"example.com", "http://example.com/a.jpg"⟩

/-- The record the handler builds for the sample origin at `noon`. -/
def freshA : Record :=
  ⟨"http://example.com/a.jpg",
    "https://s3.amazonaws.com/cacher-app/example.com/6c1fd52c961019f29e4aff02e2387768", "",
    1530000000⟩

/-- The upload request for the sample origin. -/
def uploadA : tos3Request :=
  ⟨"6c1fd52c961019f29e4aff02e2387768", "example.com/6c1fd52c961019f29e4aff02e2387768",
    "http://example.com/a.jpg", false, "cacher-app"⟩

/-- The mutation that the handler builds from `freshA`. -/
def insertA : spanner.Mutation :=
  ⟨.opInsert, "cacher",
    ["original_url,omitempty", "cached_url,omitempty", "err,omitempty", "time_at,omitempty"],
    [.String "http://example.com/a.jpg",
      .String "https://s3.amazonaws.com/cacher-app/example.com/6c1fd52c961019f29e4aff02e2387768",
      .String "", .Int64 1530000000]⟩

/-- The store's answer to `insertA`. -/
def rejectedA : String := spanner.errColumnNotFound "cacher" "original_url,omitempty"

/-- The sample request, twice. -/
def twice : List (Time × HttpRequest) := [(noon, reqA), (later, reqA)]

/-! ## Basic facts about the three store and uploader wrappers -/

section Wrappers

variable {σ ρ : Type}

theorem checkDB_world (E : Env σ ρ) (w : World σ) (k : String) :
    (checkDB E w k).2 =
      ⟨(E.ReadRow w.ext spannerTableName k ["original_url", "cached_url", "err", "time_at"]).2,
        w.log ++ [readCall k]⟩ := by
  unfold checkDB readCall
  dsimp only
  split
  · rfl
  · split <;> rfl

theorem checkDB_log (E : Env σ ρ) (w : World σ) (k : String) :
    (checkDB E w k).2.log = w.log ++ [readCall k] := by
  rw [checkDB_world]

theorem uploadToS3_log (E : Env σ ρ) (w : World σ) (o p n : String) :
    (uploadToS3 E w o p n).2.log =
      w.log ++ [.UploadToS3 ⟨n, p, o, false, defaultS3Bucket⟩ (uploadToS3 E w o p n).1] := by
  rfl

theorem saveRecordToSpanner_log (E : Env σ ρ) (w : World σ) (record : Record) :
    (saveRecordToSpanner E w record).2.log =
      w.log ++ [.Apply [spanner.insertMutation spannerTableName record]
        (saveRecordToSpanner E w record).1] := by
  rfl

end Wrappers

/-! ## The digest and its hexadecimal form -/

theorem leBytes_length (k x : Nat) : (md5.leBytes k x).length = k := by
  induction k generalizing x with
  | zero => rfl
  | succ k ih => simp [md5.leBytes, ih]

theorem md5_Sum_length (data : List Nat) : (md5.Sum data).length = 16 := by
  simp [md5.Sum, leBytes_length]

theorem sprintfHex_length (b : List Nat) : (sprintfHex b).length = 2 * b.length := by
  unfold sprintfHex
  rw [String.length_mk]
  induction b with
  | nil => rfl
  | cons x xs ih => simp only [List.flatMap_cons, List.length_append, ih, List.length_cons,
      List.length_nil]; omega

theorem hexDigit_mem (n : Nat) : hexDigit n ∈ "0123456789abcdef".data := by
  unfold hexDigit
  by_cases h : n < 16
  · interval_cases n <;> decide
  · have h16 : "0123456789abcdef".data.length ≤ n := by
      have : "0123456789abcdef".data.length = 16 := by decide
      omega
    rw [List.getD_eq_default _ _ h16]
    decide

theorem sprintfHex_chars (b : List Nat) :
    ∀ c ∈ (sprintfHex b).data, c ∈ "0123456789abcdef".data := by
  intro c hc
  simp only [sprintfHex, List.mem_flatMap, List.mem_cons, List.mem_singleton,
    List.not_mem_nil, or_false] at hc
  rcases hc with ⟨x, _, rfl | rfl⟩ <;> exact hexDigit_mem _

theorem md5Hex_length (s : String) : (md5Hex s).length = 32 := by
  rw [md5Hex, sprintfHex_length, md5_Sum_length]

set_option maxRecDepth 100000 in
/-- Test vectors of RFC 1321 for the embedded digest. -/
theorem md5Hex_empty : md5Hex "" = "d41d8cd98f00b204e9800998ecf8427e" := by
  decide

set_option maxRecDepth 100000 in
theorem md5Hex_abc : md5Hex "abc" = "900150983cd24fb0d6963f7d28e17f72" := by
  decide

set_option maxRecDepth 100000 in
theorem md5Hex_two_blocks :
    md5Hex "12345678901234567890123456789012345678901234567890123456789012345678901234567890"
      = "57edf4a22be3c955ac49da2e2107b67a" := by
  decide

/-! ## The handler, claim by claim -/

section Handler

variable {σ ρ : Type}

/-- A run whose upload fails: answer and calls. -/
theorem handle_upload_error (E : Env σ ρ) (now : Time) (r : HttpRequest) (x : σ)
    (blob : Bytes) (req : Request) (u : URL) (e err : String) (w1 w2 : World σ)
    (hbody : r.Body = .ok blob) (hjson : E.Unmarshal blob = .ok req)
    (hurl : E.Parse req.URL = .ok u)
    (hmiss : checkDB E ⟨x, []⟩ u.String = (.error e, w1))
    (hup : uploadToS3 E w1 u.String (u.Host ++ "/" ++ md5Hex u.String) (md5Hex u.String) =
      (.error err, w2)) :
    handle E now r x = (httpError err 400, w2.ext,
        [readCall u.String,
          .UploadToS3 ⟨md5Hex u.String, u.Host ++ "/" ++ md5Hex u.String, u.String, false,
            defaultS3Bucket⟩ (.error err)]) := by
  have hlog1 : w1.log = [readCall u.String] := by
    have h := checkDB_log E ⟨x, []⟩ u.String
    rw [hmiss] at h
    simpa using h
  have hlog2 : w2.log = [readCall u.String,
      .UploadToS3 ⟨md5Hex u.String, u.Host ++ "/" ++ md5Hex u.String, u.String, false,
        defaultS3Bucket⟩ (.error err)] := by
    have h := uploadToS3_log E w1 u.String (u.Host ++ "/" ++ md5Hex u.String) (md5Hex u.String)
    rw [hup, hlog1] at h
    simpa using h
  simp only [handle, retrieveOrFetchAndCache, hbody, hjson, hurl, hmiss, hup, hlog2,
    StatusBadRequest]

/-- C5 (invalid requests are rejected before any side effect): when the body is not
valid JSON for a `Request`, or it is and its `url` fails to parse, the answer is 400
with the decoder's or parser's error, the outside world is untouched and no call (store
read, uploader, store write) is made. -/
theorem invalid_request_rejected (E : Env σ ρ) (now : Time) (r : HttpRequest) (x : σ)
    (blob : Bytes) (err : String) (hbody : r.Body = .ok blob)
    (hbad : E.Unmarshal blob = .error err ∨
      ∃ req, E.Unmarshal blob = .ok req ∧ E.Parse req.URL = .error err) :
    handle E now r x = (httpError err 400, x, []) := by
  rcases hbad with hjson | ⟨req, hjson, hurl⟩
  · simp only [handle, retrieveOrFetchAndCache, hbody, hjson, StatusBadRequest]
  · simp only [handle, retrieveOrFetchAndCache, hbody, hjson, hurl, StatusBadRequest]

/-- C3 (failure isolation): when the request reaches the relocation step (the lookup
gave no record) and the uploader returns an error, the answer is 400 with that error
and the calls made are exactly the lookup and the failed upload: no store write and no
second read.  Hence any view of the store that the lookup and the upload leave alone
is the same after the request as before it. -/
theorem relocation_failure_isolated (E : Env σ ρ) (now : Time) (r : HttpRequest) (x : σ)
    (blob : Bytes) (req : Request) (u : URL) (e err : String) (w1 w2 : World σ)
    (hbody : r.Body = .ok blob) (hjson : E.Unmarshal blob = .ok req)
    (hurl : E.Parse req.URL = .ok u)
    (hmiss : checkDB E ⟨x, []⟩ u.String = (.error e, w1))
    (hup : uploadToS3 E w1 u.String (u.Host ++ "/" ++ md5Hex u.String) (md5Hex u.String) =
      (.error err, w2)) :
    handle E now r x = (httpError err 400, w2.ext,
        [readCall u.String,
          .UploadToS3 ⟨md5Hex u.String, u.Host ++ "/" ++ md5Hex u.String, u.String, false,
            defaultS3Bucket⟩ (.error err)]) ∧
      (∀ c ∈ (handle E now r x).2.2, c.isWrite = false) ∧
      ∀ (S : Type) (store : σ → S), store w1.ext = store x → store w2.ext = store w1.ext →
        store (handle E now r x).2.1 = store x := by
  have hrun := handle_upload_error E now r x blob req u e err w1 w2 hbody hjson hurl hmiss hup
  refine ⟨hrun, ?_, ?_⟩
  · rw [hrun]
    intro c hc
    simp only [List.mem_cons, List.mem_singleton, List.not_mem_nil, or_false] at hc
    rcases hc with rfl | rfl <;> rfl
  · intro S store h1 h2
    rw [hrun]
    exact h2.trans h1

/-- C4 (inconsistency is a hard failure): on the miss path, (a) when the upload
succeeded and the store write reported success but the re-read yields no record, the
answer is 422 "Failed to process record"; (b) every 200 answer carries the record that
the re-read after a successful upload and write returned, never the locally built
record as such; (c) when the write of the locally built record reports an error, the
answer is 400 with that error, so the write attempt alone never yields a success
response. -/
theorem inconsistency_is_hard_failure (E : Env σ ρ) (now : Time) (r : HttpRequest) (x : σ)
    (blob : Bytes) (req : Request) (u : URL) (e : String) (w1 : World σ)
    (hbody : r.Body = .ok blob) (hjson : E.Unmarshal blob = .ok req)
    (hurl : E.Parse req.URL = .ok u)
    (hmiss : checkDB E ⟨x, []⟩ u.String = (.error e, w1)) :
    (∀ (s3URL e2 : String) (w2 w3 w4 : World σ),
        uploadToS3 E w1 u.String (u.Host ++ "/" ++ md5Hex u.String) (md5Hex u.String) =
          (.ok s3URL, w2) →
        saveRecordToSpanner E w2 ⟨u.String, s3URL, "", now.Unix⟩ = (none, w3) →
        checkDB E w3 u.String = (.error e2, w4) →
        retrieveOrFetchAndCache E now r ⟨x, []⟩ =
          (⟨422, .text "Failed to process record"⟩, w4)) ∧
      (∀ (resp : Response) (wf : World σ),
        retrieveOrFetchAndCache E now r ⟨x, []⟩ = (resp, wf) → resp.code = 200 →
        ∃ (s3URL : String) (w2 w3 : World σ) (stored : Record),
          uploadToS3 E w1 u.String (u.Host ++ "/" ++ md5Hex u.String) (md5Hex u.String) =
            (.ok s3URL, w2) ∧
          saveRecordToSpanner E w2 ⟨u.String, s3URL, "", now.Unix⟩ = (none, w3) ∧
          checkDB E w3 u.String = (.ok stored, wf) ∧
          resp = ⟨200, .json stored⟩) ∧
      ∀ (s3URL err : String) (w2 w3 : World σ),
        uploadToS3 E w1 u.String (u.Host ++ "/" ++ md5Hex u.String) (md5Hex u.String) =
          (.ok s3URL, w2) →
        saveRecordToSpanner E w2 ⟨u.String, s3URL, "", now.Unix⟩ = (some err, w3) →
        retrieveOrFetchAndCache E now r ⟨x, []⟩ = (⟨400, .text err⟩, w3) := by
  refine ⟨?_, ?_, ?_⟩
  · intro s3URL e2 w2 w3 w4 hup hsave hre
    simp only [retrieveOrFetchAndCache, hbody, hjson, hurl, hmiss, hup, hsave, hre,
      httpError, StatusUnprocessableEntity]
  rotate_left
  · intro s3URL err w2 w3 hup hsave
    simp only [retrieveOrFetchAndCache, hbody, hjson, hurl, hmiss, hup, hsave,
      httpError, StatusBadRequest]
  · intro resp wf hrun hcode
    simp only [retrieveOrFetchAndCache, hbody, hjson, hurl, hmiss] at hrun
    rcases hup : uploadToS3 E w1 u.String (u.Host ++ "/" ++ md5Hex u.String)
      (md5Hex u.String) with ⟨up, w2⟩
    rw [hup] at hrun
    cases up with
    | error err =>
      simp only [httpError, StatusBadRequest, Prod.mk.injEq] at hrun
      rw [← hrun.1] at hcode
      simp at hcode
    | ok s3URL =>
      dsimp only at hrun
      rcases hsave : saveRecordToSpanner E w2 ⟨u.String, s3URL, "", now.Unix⟩ with ⟨sv, w3⟩
      rw [hsave] at hrun
      cases sv with
      | some err =>
        simp only [httpError, StatusBadRequest, Prod.mk.injEq] at hrun
        rw [← hrun.1] at hcode
        simp at hcode
      | none =>
        dsimp only at hrun
        rcases hre : checkDB E w3 u.String with ⟨rd, w4⟩
        rw [hre] at hrun
        cases rd with
        | error err =>
          simp only [httpError, StatusUnprocessableEntity, Prod.mk.injEq] at hrun
          rw [← hrun.1] at hcode
          simp at hcode
        | ok stored =>
          simp only [replyAsJSON, StatusOK, Prod.mk.injEq] at hrun
          exact ⟨s3URL, w2, w3, stored, rfl, hsave, by rw [← hrun.2, hre], hrun.1.symm⟩

/-- Every call the handler makes is, for the URL `u` parsed from the decoded body, the
lookup of `u.String`, the upload of `u.String` under its MD5 name, or the insert of a
record for `u.String`. -/
theorem calls_of_handler (E : Env σ ρ) (now : Time) (r : HttpRequest) (x : σ) (c : Call)
    (hc : c ∈ (handle E now r x).2.2) :
    ∃ (blob : Bytes) (req : Request) (u : URL),
      r.Body = .ok blob ∧ E.Unmarshal blob = .ok req ∧ E.Parse req.URL = .ok u ∧
      (c = readCall u.String ∨
        (∃ up, c = .UploadToS3 ⟨md5Hex u.String, u.Host ++ "/" ++ md5Hex u.String, u.String,
          false, defaultS3Bucket⟩ up) ∨
        ∃ s3URL sv, c = .Apply [spanner.insertMutation spannerTableName
          ⟨u.String, s3URL, "", now.Unix⟩] sv) := by
  unfold handle retrieveOrFetchAndCache at hc
  rcases hbody : r.Body with err | blob
  · rw [hbody] at hc
    simp at hc
  rw [hbody] at hc
  dsimp only at hc
  rcases hjson : E.Unmarshal blob with err | req
  · rw [hjson] at hc
    simp at hc
  rw [hjson] at hc
  dsimp only at hc
  rcases hurl : E.Parse req.URL with err | u
  · rw [hurl] at hc
    simp at hc
  rw [hurl] at hc
  refine ⟨blob, req, u, rfl, hjson, hurl, ?_⟩
  dsimp only at hc
  rcases h1 : checkDB E ⟨x, []⟩ u.String with ⟨rd, w1⟩
  have hlog1 : w1.log = [readCall u.String] := by
    have h := checkDB_log E ⟨x, []⟩ u.String
    rw [h1] at h
    simpa using h
  rw [h1] at hc
  cases rd with
  | ok record =>
    simp only [hlog1, List.mem_singleton] at hc
    exact Or.inl hc
  | error e =>
    dsimp only at hc
    rcases h2 : uploadToS3 E w1 u.String (u.Host ++ "/" ++ md5Hex u.String)
      (md5Hex u.String) with ⟨up, w2⟩
    have hlog2 := uploadToS3_log E w1 u.String (u.Host ++ "/" ++ md5Hex u.String)
      (md5Hex u.String)
    rw [h2, hlog1] at hlog2
    dsimp only at hlog2
    rw [h2] at hc
    cases up with
    | error err =>
      simp only [hlog2, List.singleton_append, List.mem_cons, List.mem_singleton,
        List.not_mem_nil, or_false] at hc
      rcases hc with rfl | rfl
      · exact Or.inl rfl
      · exact Or.inr (Or.inl ⟨_, rfl⟩)
    | ok s3URL =>
      dsimp only at hc
      rcases h3 : saveRecordToSpanner E w2 ⟨u.String, s3URL, "", now.Unix⟩ with ⟨sv, w3⟩
      have hlog3 := saveRecordToSpanner_log E w2 ⟨u.String, s3URL, "", now.Unix⟩
      rw [h3, hlog2] at hlog3
      dsimp only at hlog3
      rw [h3] at hc
      cases sv with
      | some err =>
        simp only [hlog3, List.singleton_append, List.cons_append, List.nil_append,
          List.mem_cons, List.mem_singleton, List.not_mem_nil, or_false] at hc
        rcases hc with rfl | rfl | rfl
        · exact Or.inl rfl
        · exact Or.inr (Or.inl ⟨_, rfl⟩)
        · exact Or.inr (Or.inr ⟨_, _, rfl⟩)
      | none =>
        dsimp only at hc
        rcases h4 : checkDB E w3 u.String with ⟨rd2, w4⟩
        have hlog4 := checkDB_log E w3 u.String
        rw [h4, hlog3] at hlog4
        dsimp only at hlog4
        rw [h4] at hc
        have hmem : c ∈ w4.log := by
          cases rd2 <;> exact hc
        simp only [hlog4, List.singleton_append, List.cons_append, List.nil_append,
          List.mem_cons, List.mem_singleton, List.not_mem_nil, or_false] at hmem
        rcases hmem with rfl | rfl | rfl | rfl
        · exact Or.inl rfl
        · exact Or.inr (Or.inl ⟨_, rfl⟩)
        · exact Or.inr (Or.inr ⟨_, _, rfl⟩)
        · exact Or.inl rfl

/-- C9 (idempotent destination naming): whenever the handler calls the uploader, the
name it hands over is the lowercase hexadecimal MD5 digest of the normalized origin (the
upload's source URL), 32 characters long, and the path is the URL's host, a slash and
that name.  The name is a function of the origin alone: any other upload call, by any
request at any time against any outside world, that has the same origin has the same
name. -/
theorem destination_name_is_md5_of_origin (E : Env σ ρ) (now : Time) (r : HttpRequest)
    (x : σ) (q : tos3Request) (res : Except String String)
    (hcall : Call.UploadToS3 q res ∈ (handle E now r x).2.2) :
    q.Name = sprintfHex (md5.Sum (bytesOf q.URL)) ∧
      q.Name.length = 32 ∧
      (∀ c ∈ q.Name.data, c ∈ "0123456789abcdef".data) ∧
      (∃ (blob : Bytes) (req : Request) (u : URL),
        r.Body = .ok blob ∧ E.Unmarshal blob = .ok req ∧ E.Parse req.URL = .ok u ∧
        q.URL = u.String ∧ q.Path = u.Host ++ "/" ++ q.Name) ∧
      ∀ (τ υ : Type) (F : Env τ υ) (now2 : Time) (r2 : HttpRequest) (y : τ)
        (q2 : tos3Request) (res2 : Except String String),
        Call.UploadToS3 q2 res2 ∈ (handle F now2 r2 y).2.2 → q2.URL = q.URL →
        q2.Name = q.Name := by
  have key : ∀ (τ υ : Type) (F : Env τ υ) (now2 : Time) (r2 : HttpRequest) (y : τ)
      (q2 : tos3Request) (res2 : Except String String),
      Call.UploadToS3 q2 res2 ∈ (handle F now2 r2 y).2.2 →
      ∃ (blob : Bytes) (req : Request) (u : URL),
        r2.Body = .ok blob ∧ F.Unmarshal blob = .ok req ∧ F.Parse req.URL = .ok u ∧
        q2 = ⟨md5Hex u.String, u.Host ++ "/" ++ md5Hex u.String, u.String, false,
          defaultS3Bucket⟩ := by
    intro τ υ F now2 r2 y q2 res2 h
    obtain ⟨blob, req, u, hb, hj, hu, hcase⟩ := calls_of_handler F now2 r2 y _ h
    refine ⟨blob, req, u, hb, hj, hu, ?_⟩
    rcases hcase with h1 | ⟨up, h2⟩ | ⟨s3URL, sv, h3⟩
    · simp [readCall] at h1
    · simp only [Call.UploadToS3.injEq] at h2
      exact h2.1
    · simp at h3
  obtain ⟨blob, req, u, hb, hj, hu, hq⟩ := key σ ρ E now r x q res hcall
  subst hq
  refine ⟨rfl, md5Hex_length _, sprintfHex_chars _, ⟨blob, req, u, hb, hj, hu, rfl, rfl⟩, ?_⟩
  intro τ υ F now2 r2 y q2 res2 h2 hurl
  obtain ⟨_, _, u2, _, _, _, hq2⟩ := key τ υ F now2 r2 y q2 res2 h2
  subst hq2
  dsimp only at hurl ⊢
  rw [hurl]

/-- A run whose lookup gives no record, for whatever reason, goes on to the upload: the
log starts with the lookup and the upload of the origin under its MD5 name. -/
theorem handle_miss_calls (E : Env σ ρ) (now : Time) (r : HttpRequest) (x : σ)
    (blob : Bytes) (req : Request) (u : URL) (e : String) (w1 : World σ)
    (hbody : r.Body = .ok blob) (hjson : E.Unmarshal blob = .ok req)
    (hurl : E.Parse req.URL = .ok u)
    (hmiss : checkDB E ⟨x, []⟩ u.String = (.error e, w1)) :
    ∃ rest, (handle E now r x).2.2 =
      readCall u.String ::
        .UploadToS3 (uploadFor u)
          (uploadToS3 E w1 u.String (u.Host ++ "/" ++ md5Hex u.String) (md5Hex u.String)).1 ::
        rest := by
  have hlog1 : w1.log = [readCall u.String] := by
    have h := checkDB_log E ⟨x, []⟩ u.String
    rw [hmiss] at h
    simpa using h
  have hlog2 := uploadToS3_log E w1 u.String (u.Host ++ "/" ++ md5Hex u.String)
    (md5Hex u.String)
  rw [hlog1] at hlog2
  simp only [handle, retrieveOrFetchAndCache, hbody, hjson, hurl, hmiss]
  rcases h2 : uploadToS3 E w1 u.String (u.Host ++ "/" ++ md5Hex u.String)
    (md5Hex u.String) with ⟨up, w2⟩
  rw [h2] at hlog2
  dsimp only at hlog2
  cases up with
  | error err => exact ⟨[], by simp only [hlog2, uploadFor]; rfl⟩
  | ok s3URL =>
    dsimp only
    rcases h3 : saveRecordToSpanner E w2 ⟨u.String, s3URL, "", now.Unix⟩ with ⟨sv, w3⟩
    have hlog3 := saveRecordToSpanner_log E w2 ⟨u.String, s3URL, "", now.Unix⟩
    rw [h3, hlog2] at hlog3
    dsimp only at hlog3
    cases sv with
    | some err => exact ⟨_, by simp only [hlog3, uploadFor]; rfl⟩
    | none =>
      dsimp only
      rcases h4 : checkDB E w3 u.String with ⟨rd2, w4⟩
      have hlog4 := checkDB_log E w3 u.String
      rw [h4, hlog3] at hlog4
      dsimp only at hlog4
      cases rd2 with
      | error err => exact ⟨_, by simp only [hlog4, uploadFor]; rfl⟩
      | ok rec => exact ⟨_, by simp only [hlog4, uploadFor]; rfl⟩

/-- A run whose lookup gives no record, for whatever reason, is from there on the miss
path: the upload, then the write of the new record, then the re-read decide the
answer. -/
theorem handle_miss_run (E : Env σ ρ) (now : Time) (r : HttpRequest) (x : σ)
    (blob : Bytes) (req : Request) (u : URL) (e : String) (w1 : World σ)
    (hbody : r.Body = .ok blob) (hjson : E.Unmarshal blob = .ok req)
    (hurl : E.Parse req.URL = .ok u)
    (hmiss : checkDB E ⟨x, []⟩ u.String = (.error e, w1)) :
    retrieveOrFetchAndCache E now r ⟨x, []⟩ =
      (match uploadToS3 E w1 u.String (u.Host ++ "/" ++ md5Hex u.String) (md5Hex u.String) with
      | (.error err, w2) => (⟨400, .text err⟩, w2)
      | (.ok s3URL, w2) =>
        match saveRecordToSpanner E w2 ⟨u.String, s3URL, "", now.Unix⟩ with
        | (some err, w3) => (⟨400, .text err⟩, w3)
        | (none, w3) =>
          match checkDB E w3 u.String with
          | (.ok record, w4) => (⟨200, .json record⟩, w4)
          | (.error _, w4) => (⟨422, .text "Failed to process record"⟩, w4)) := by
  simp only [retrieveOrFetchAndCache, hbody, hjson, hurl, hmiss]
  rfl

/-- The handler never reads `ForceRefetch`: changing the flag of the decoded request in
any way changes neither the answer, nor the outside world, nor the calls. -/
theorem force_refetch_unread (E : Env σ ρ) (flag : Request → Bool) (now : Time)
    (r : HttpRequest) (x : σ) :
    handle (overrideForceRefetch E flag) now r x = handle E now r x := by
  unfold handle retrieveOrFetchAndCache overrideForceRefetch
  rcases hbody : r.Body with err | blob
  · rfl
  dsimp only
  rcases hjson : E.Unmarshal blob with err | req
  · rfl
  · rfl

/-- C8 (amended: a failed store read is treated as a miss): when the initial lookup
gives no record because of any error at all (not-found, store unavailable, permission
denied, cancelled or timed-out context), the handler does not answer with that error.
Its next call is the upload of the origin under its MD5 name, and from there the run is
the miss path whatever the error of the lookup was: an upload error is answered 400 with
that error; after a successful upload the write of the new record is attempted and a
write error is answered 400 with that error; after a write reported as successful the
re-read decides between 200 with the record read and 422. -/
theorem failed_read_proceeds_to_relocation (E : Env σ ρ) (now : Time) (r : HttpRequest)
    (x : σ) (blob : Bytes) (req : Request) (u : URL) (e : String) (w1 : World σ)
    (hbody : r.Body = .ok blob) (hjson : E.Unmarshal blob = .ok req)
    (hurl : E.Parse req.URL = .ok u)
    (hmiss : checkDB E ⟨x, []⟩ u.String = (.error e, w1)) :
    retrieveOrFetchAndCache E now r ⟨x, []⟩ =
        (match uploadToS3 E w1 u.String (u.Host ++ "/" ++ md5Hex u.String)
          (md5Hex u.String) with
        | (.error err, w2) => (⟨400, .text err⟩, w2)
        | (.ok s3URL, w2) =>
          match saveRecordToSpanner E w2 ⟨u.String, s3URL, "", now.Unix⟩ with
          | (some err, w3) => (⟨400, .text err⟩, w3)
          | (none, w3) =>
            match checkDB E w3 u.String with
            | (.ok record, w4) => (⟨200, .json record⟩, w4)
            | (.error _, w4) => (⟨422, .text "Failed to process record"⟩, w4)) ∧
      (∃ rest, (handle E now r x).2.2 =
        readCall u.String ::
          .UploadToS3 ⟨md5Hex u.String, u.Host ++ "/" ++ md5Hex u.String, u.String, false,
              defaultS3Bucket⟩
            (uploadToS3 E w1 u.String (u.Host ++ "/" ++ md5Hex u.String) (md5Hex u.String)).1 ::
          rest) ∧
      (handle E now r x).2.2.any Call.isUpload = true := by
  obtain ⟨rest, h⟩ := handle_miss_calls E now r x blob req u e w1 hbody hjson hurl hmiss
  refine ⟨handle_miss_run E now r x blob req u e w1 hbody hjson hurl hmiss, ⟨rest, h⟩, ?_⟩
  rw [h]
  simp [Call.isUpload]

end Handler

/-! ## Through the Spanner client -/

section Client

variable {σ : Type}

/-- The column `original_url` that `checkDB` reads matches no field of `Record`, whose
fields are known to the client as `original_url,omitempty` and so on. -/
theorem matchField_original_url : spanner.matchField "original_url" = none := by
  decide

/-- A row read with the columns of `checkDB` does not decode into a `Record`. -/
theorem ToStruct_fails (vals : List spanner.Value) :
    ∃ err, spanner.ToStruct ⟨["original_url", "cached_url", "err", "time_at"], vals⟩ =
      .error err := by
  unfold spanner.ToStruct
  by_cases hlen : vals.length ≠ ["original_url", "cached_url", "err", "time_at"].length
  · exact ⟨_, if_pos hlen⟩
  · rw [if_neg hlen]
    cases vals with
    | nil => simp at hlen
    | cons v vs =>
      refine ⟨spanner.errNoOrDupGoField "original_url", ?_⟩
      simp [spanner.decodeStruct, matchField_original_url]

/-- Through the client `checkDB` never yields a record, whatever the store holds and
whatever it answers. -/
theorem client_checkDB_fails (U : Bytes → Except String Request)
    (P : String → Except String URL)
    (read : σ → String → String → List String → Except String (List spanner.Value) × σ)
    (apply : σ → List spanner.Mutation → Option String × σ)
    (upload : σ → tos3Request → Except String String × σ) (w : World σ) (k : String) :
    ∃ e w1, checkDB (clientEnv U P read apply upload) w k = (.error e, w1) := by
  unfold checkDB clientEnv
  dsimp only
  rcases hread : read w.ext spannerTableName k ["original_url", "cached_url", "err", "time_at"]
    with ⟨res, x1⟩
  cases res with
  | error err => exact ⟨err, _, rfl⟩
  | ok vals =>
    obtain ⟨err, herr⟩ := ToStruct_fails vals
    dsimp only
    rw [herr]
    exact ⟨err, _, rfl⟩

/-- C2 (force-refetch bypass): through the Spanner client, whatever the store holds and
answers, every request whose body decodes with `force_refetch = true` and whose URL
parses calls the uploader with the origin right after the lookup; the answer is not
given on the fast path (the run does not end with the lookup), so no stored record is
returned there. -/
theorem force_refetch_relocates (U : Bytes → Except String Request)
    (P : String → Except String URL)
    (read : σ → String → String → List String → Except String (List spanner.Value) × σ)
    (apply : σ → List spanner.Mutation → Option String × σ)
    (upload : σ → tos3Request → Except String String × σ)
    (now : Time) (r : HttpRequest) (x : σ) (blob : Bytes) (req : Request) (u : URL)
    (hbody : r.Body = .ok blob) (hjson : U blob = .ok req)
    (_hforce : req.ForceRefetch = true) (hurl : P req.URL = .ok u) :
    (∃ res rest, (handle (clientEnv U P read apply upload) now r x).2.2 =
        readCall u.String ::
          .UploadToS3 ⟨md5Hex u.String, u.Host ++ "/" ++ md5Hex u.String, u.String, false,
            defaultS3Bucket⟩ res :: rest) ∧
      (handle (clientEnv U P read apply upload) now r x).2.2.any Call.isUpload = true ∧
      (handle (clientEnv U P read apply upload) now r x).2.2 ≠ [readCall u.String] := by
  obtain ⟨e, w1, hmiss⟩ := client_checkDB_fails U P read apply upload ⟨x, []⟩ u.String
  obtain ⟨rest, h⟩ := handle_miss_calls (clientEnv U P read apply upload) now r x blob req u
    e w1 hbody hjson hurl hmiss
  refine ⟨⟨_, rest, h⟩, ?_, ?_⟩
  · rw [h]
    simp [Call.isUpload]
  · rw [h]
    simp

end Client

/-! ## The reference store -/

section Store

variable {α : Type}

/-- The store rejects the mutation built from any `Record`: its first column,
`original_url,omitempty`, is not a column of the table. -/
theorem applyAll_insertMutation (rows : List spanner.Stored) (rec : Record) :
    spanner.applyAll rows [spanner.insertMutation spannerTableName rec] =
      .error (spanner.errColumnNotFound "cacher" "original_url,omitempty") := by
  rfl

/-- In the reference world `saveRecordToSpanner` never reports success and never
changes the rows, whatever the record and whatever the table holds. -/
theorem cloud_save_rejected (U : Bytes → Except String Request)
    (P : String → Except String URL)
    (up : α → tos3Request → Except String String × α) (c : Cloud α) (l : List Call)
    (rec : Record) :
    ∃ err, saveRecordToSpanner (cloudEnv U P up) ⟨c, l⟩ rec =
      (some err, ⟨⟨c.rows, c.faults.tail, c.bucket⟩,
        l ++ [.Apply [spanner.insertMutation spannerTableName rec] (some err)]⟩) := by
  unfold saveRecordToSpanner spanner.InsertStruct cloudEnv clientEnv cloudApply
  dsimp only
  rcases hf : c.faults.head?.join with _ | err
  · exact ⟨_, by rw [applyAll_insertMutation]⟩
  · exact ⟨err, rfl⟩

/-- In the reference world every request whose URL parses is answered 400 after the
uploader was called, and leaves the rows of the table as they were: no stored record is
ever served and none is ever written. -/
theorem cloud_never_succeeds (U : Bytes → Except String Request)
    (P : String → Except String URL)
    (up : α → tos3Request → Except String String × α) (now : Time) (r : HttpRequest)
    (c : Cloud α) (blob : Bytes) (req : Request) (u : URL)
    (hbody : r.Body = .ok blob) (hjson : U blob = .ok req) (hurl : P req.URL = .ok u) :
    (handle (cloudEnv U P up) now r c).1.code = 400 ∧
      (handle (cloudEnv U P up) now r c).2.1.rows = c.rows ∧
      (handle (cloudEnv U P up) now r c).2.2.any Call.isUpload = true := by
  obtain ⟨e, w1, hmiss⟩ := client_checkDB_fails U P cloudRead cloudApply (cloudUpload up)
    ⟨c, []⟩ u.String
  have hmiss2 : checkDB (cloudEnv U P up) ⟨c, []⟩ u.String = (.error e, w1) := hmiss
  have hw1 : w1.ext.rows = c.rows := by
    have h := checkDB_world (cloudEnv U P up) ⟨c, []⟩ u.String
    rw [hmiss2] at h
    dsimp only at h
    rw [h]
    simp only [cloudEnv, clientEnv, cloudRead]
    rcases c.faults.head?.join with _ | err
    · dsimp only
      cases spanner.readValues c.rows spannerTableName u.String
        ["original_url", "cached_url", "err", "time_at"] <;> rfl
    · rfl
  obtain ⟨rest, hcalls⟩ := handle_miss_calls (cloudEnv U P up) now r c blob req u e w1 hbody
    hjson hurl hmiss2
  have hrun := handle_miss_run (cloudEnv U P up) now r c blob req u e w1 hbody hjson hurl hmiss2
  refine ⟨?_, ?_, by rw [hcalls]; simp [Call.isUpload]⟩
  · unfold handle
    dsimp only
    rw [hrun]
    rcases uploadToS3 (cloudEnv U P up) w1 u.String (u.Host ++ "/" ++ md5Hex u.String)
      (md5Hex u.String) with ⟨res, w2⟩
    cases res with
    | error err => rfl
    | ok s3URL =>
      obtain ⟨err, hsave⟩ := cloud_save_rejected U P up w2.ext w2.log
        ⟨u.String, s3URL, "", now.Unix⟩
      dsimp only
      rw [hsave]
  · unfold handle
    dsimp only
    rw [hrun]
    have hup : (uploadToS3 (cloudEnv U P up) w1 u.String (u.Host ++ "/" ++ md5Hex u.String)
        (md5Hex u.String)).2.ext.rows = w1.ext.rows := rfl
    rcases hres : uploadToS3 (cloudEnv U P up) w1 u.String (u.Host ++ "/" ++ md5Hex u.String)
      (md5Hex u.String) with ⟨res, w2⟩
    rw [hres] at hup
    dsimp only at hup
    cases res with
    | error err =>
      dsimp only
      rw [hup, hw1]
    | ok s3URL =>
      obtain ⟨err, hsave⟩ := cloud_save_rejected U P up w2.ext w2.log
        ⟨u.String, s3URL, "", now.Unix⟩
      dsimp only
      rw [hsave]
      dsimp only
      rw [hup, hw1]

end Store

/-! ## Concrete runs -/

section Runs

set_option maxRecDepth 100000 in
theorem invalid_request_rejected_witness :
    handle sampleEnv noon ⟨.ok bodyBadURL⟩ ⟨[storedA], [], []⟩ =
      (⟨400, .text "parse \"::not a url::\": missing protocol scheme"⟩,
        ⟨[storedA], [], []⟩, []) :=
  invalid_request_rejected sampleEnv noon ⟨.ok bodyBadURL⟩ ⟨[storedA], [], []⟩ bodyBadURL
    "parse \"::not a url::\": missing protocol scheme" rfl
    (Or.inr ⟨⟨"::not a url::", false, 0⟩, by decide, by decide⟩)

set_option maxRecDepth 100000 in
theorem relocation_failure_isolated_witness :
    handle sampleEnvBad noon reqA ⟨[], [], []⟩ =
      (⟨400, .text "tos3: fetch failed"⟩, ⟨[], [], []⟩,
        [readCall "http://example.com/a.jpg", .UploadToS3 uploadA (.error "tos3: fetch failed")]) :=
  (relocation_failure_isolated sampleEnvBad noon reqA ⟨[], [], []⟩ bodyA
    ⟨"http://example.com/a.jpg", false, 0⟩ urlA
    "spanner: code = \"NotFound\", desc = \"row not found\"" "tos3: fetch failed"
    ⟨⟨[], [], []⟩, [readCall "http://example.com/a.jpg"]⟩
    ⟨⟨[], [], []⟩, [readCall "http://example.com/a.jpg",
      .UploadToS3 uploadA (.error "tos3: fetch failed")]⟩
    rfl (by decide) (by decide) (by rfl) (by rfl)).1

set_option maxRecDepth 100000 in
theorem destination_name_is_md5_of_origin_witness :
    uploadA.Name = sprintfHex (md5.Sum (bytesOf "http://example.com/a.jpg")) ∧
      uploadA.Name.length = 32 :=
  have h := destination_name_is_md5_of_origin sampleEnv noon reqA ⟨[], [], []⟩ uploadA
    (.ok freshA.CachedURL) (by decide)
  ⟨h.1, h.2.1⟩

set_option maxRecDepth 100000 in
theorem inconsistency_is_hard_failure_witness :
    retrieveOrFetchAndCache sampleEnv noon reqA ⟨⟨[], [], []⟩, []⟩ =
      (⟨400, .text rejectedA⟩,
        ⟨⟨[], [], [uploadA]⟩,
          [readCall "http://example.com/a.jpg", .UploadToS3 uploadA (.ok freshA.CachedURL),
            .Apply [insertA] (some rejectedA)]⟩) :=
  (inconsistency_is_hard_failure sampleEnv noon reqA ⟨[], [], []⟩ bodyA
    ⟨"http://example.com/a.jpg", false, 0⟩ urlA
    "spanner: code = \"NotFound\", desc = \"row not found\""
    ⟨⟨[], [], []⟩, [readCall "http://example.com/a.jpg"]⟩
    rfl (by decide) (by decide) (by rfl)).2.2 freshA.CachedURL rejectedA
    ⟨⟨[], [], [uploadA]⟩,
      [readCall "http://example.com/a.jpg", .UploadToS3 uploadA (.ok freshA.CachedURL)]⟩
    ⟨⟨[], [], [uploadA]⟩,
      [readCall "http://example.com/a.jpg", .UploadToS3 uploadA (.ok freshA.CachedURL),
        .Apply [insertA] (some rejectedA)]⟩
    (by rfl) (by rfl)

set_option maxRecDepth 100000 in
theorem force_refetch_relocates_witness :
    spanner.lookup [storedA] "http://example.com/a.jpg" = some storedA ∧
      (handle sampleEnv noon ⟨.ok bodyForce⟩ ⟨[storedA], [], []⟩).2.2.any Call.isUpload = true :=
  ⟨by decide,
    (force_refetch_relocates sampleUnmarshal sampleParse cloudRead cloudApply
      (cloudUpload okUpload) noon ⟨.ok bodyForce⟩
      ⟨[storedA], [], []⟩ bodyForce ⟨"http://example.com/a.jpg", true, 0⟩ urlA
      rfl (by decide) rfl (by decide)).2.1⟩

set_option maxRecDepth 100000 in
/-- C8 as stated fails: the request context is cancelled, so the lookup fails with that
error (the row is not reported missing); the handler still goes on to call the uploader
and to attempt the write. -/
theorem failed_read_is_treated_as_miss :
    checkDB sampleEnv ⟨⟨[], [some "context canceled", some "context canceled"], []⟩, []⟩
        "http://example.com/a.jpg" =
        (.error "context canceled",
          ⟨⟨[], [some "context canceled"], []⟩, [readCall "http://example.com/a.jpg"]⟩) ∧
      handle sampleEnv noon reqA ⟨[], [some "context canceled", some "context canceled"], []⟩ =
        (⟨400, .text "context canceled"⟩, ⟨[], [], [uploadA]⟩,
          [readCall "http://example.com/a.jpg", .UploadToS3 uploadA (.ok freshA.CachedURL),
            .Apply [insertA] (some "context canceled")]) ∧
      (∃ c ∈ (handle sampleEnv noon reqA
          ⟨[], [some "context canceled", some "context canceled"], []⟩).2.2,
        c.isUpload = true) ∧
      ∃ c ∈ (handle sampleEnv noon reqA
          ⟨[], [some "context canceled", some "context canceled"], []⟩).2.2,
        c.isWrite = true := by
  refine ⟨by rfl, by rfl, by decide, by decide⟩

set_option maxRecDepth 100000 in
theorem failed_read_proceeds_to_relocation_witness :
    retrieveOrFetchAndCache sampleEnv noon reqA
        ⟨⟨[storedA], [some "spanner: code = \"Unavailable\""], []⟩, []⟩ =
      (⟨400, .text rejectedA⟩,
        ⟨⟨[storedA], [], [uploadA]⟩,
          [readCall "http://example.com/a.jpg", .UploadToS3 uploadA (.ok freshA.CachedURL),
            .Apply [insertA] (some rejectedA)]⟩) :=
  (failed_read_proceeds_to_relocation sampleEnv noon reqA
    ⟨[storedA], [some "spanner: code = \"Unavailable\""], []⟩ bodyA
    ⟨"http://example.com/a.jpg", false, 0⟩ urlA "spanner: code = \"Unavailable\""
    ⟨⟨[storedA], [], []⟩, [readCall "http://example.com/a.jpg"]⟩
    rfl (by decide) (by decide) (by rfl)).1.trans (by rfl)

/-! ## Where the source departs from what it sets out to do

The four runs below come from one defect: the `spanner` tags of `Record` carry the
JSON option `,omitempty`, which the Spanner client takes as part of the column name. -/

set_option maxRecDepth 100000 in
/-- C1, evaluated on the code: the table holds a row for the origin and the store
returns it, but `checkDB` cannot decode it into a `Record`; the handler takes the miss
path, calls the uploader, attempts the insert and answers 400. -/
theorem stored_record_is_not_served :
    spanner.readValues [storedA] "cacher" "http://example.com/a.jpg"
        ["original_url", "cached_url", "err", "time_at"] =
        .ok [.String "http://example.com/a.jpg", .String "https://cdn.example.org/old",
          .String "", .Int64 1500000000] ∧
      checkDB sampleEnv ⟨⟨[storedA], [], []⟩, []⟩ "http://example.com/a.jpg" =
        (.error (spanner.errNoOrDupGoField "original_url"),
          ⟨⟨[storedA], [], []⟩, [readCall "http://example.com/a.jpg"]⟩) ∧
      handle sampleEnv noon reqA ⟨[storedA], [], []⟩ =
        (⟨400, .text rejectedA⟩, ⟨[storedA], [], [uploadA]⟩,
          [readCall "http://example.com/a.jpg", .UploadToS3 uploadA (.ok freshA.CachedURL),
            .Apply [insertA] (some rejectedA)]) := by
  refine ⟨by decide, by rfl, by rfl⟩

set_option maxRecDepth 100000 in
/-- C6, evaluated on the code: the mutation that `saveRecordToSpanner` sends is an
insert that names the columns `original_url,omitempty` and so on; the store rejects it
and the rows stay as they were, with a row for the origin in the table and with an
empty table alike. -/
theorem save_is_rejected :
    spanner.insertMutation spannerTableName freshA = insertA ∧
      saveRecordToSpanner sampleEnv ⟨⟨[storedA], [], []⟩, []⟩ freshA =
        (some rejectedA, ⟨⟨[storedA], [], []⟩, [.Apply [insertA] (some rejectedA)]⟩) ∧
      saveRecordToSpanner sampleEnv ⟨⟨[], [], []⟩, []⟩ freshA =
        (some rejectedA, ⟨⟨[], [], []⟩, [.Apply [insertA] (some rejectedA)]⟩) := by
  refine ⟨by decide, by rfl, by rfl⟩

set_option maxRecDepth 100000 in
/-- C7, evaluated on the code: the table is empty, the URL parses and the uploader
returns a reference; the write of the new record is rejected, the handler answers 400
and the table is still empty. -/
theorem round_trip_is_not_performed :
    handle sampleEnv noon reqA ⟨[], [], []⟩ =
      (⟨400, .text rejectedA⟩, ⟨[], [], [uploadA]⟩,
        [readCall "http://example.com/a.jpg", .UploadToS3 uploadA (.ok freshA.CachedURL),
          .Apply [insertA] (some rejectedA)]) := by
  rfl

set_option maxRecDepth 100000 in
/-- C10, evaluated on the code: the same request is handled twice, one after the other,
with no store fault and an uploader that succeeds; the uploader succeeds for the origin
both times and the second request is not a hit. -/
theorem same_origin_is_relocated_twice :
    ((serve sampleEnv twice ⟨[], [], []⟩).1.flatMap Prod.snd).countP
        (Call.relocated "http://example.com/a.jpg") = 2 ∧
      (serve sampleEnv twice ⟨[], [], []⟩).1[1]? =
        some (⟨400, .text rejectedA⟩,
          [readCall "http://example.com/a.jpg", .UploadToS3 uploadA (.ok freshA.CachedURL),
            .Apply [spanner.insertMutation "cacher" { freshA with TimeAt := later.Unix }]
              (some rejectedA)]) ∧
      (serve sampleEnv twice ⟨[], [], []⟩).2.rows = [] := by
  refine ⟨by decide, by decide, by rfl⟩

end Runs

end Cacher
